import Mathlib

/-!
Shallow embedding of the visitor-management core (React/TypeScript):
the roster state held by `App`, its mutation operations `addVisitor` and
`checkOutVisitor`, the `VisitorForm` submit handler, the search/filter
projection `filteredVisitors`, and the `localStorage`-backed state
initializer.

Modelling conventions.  Instants (`Date.now()` values and the ISO-8601
strings produced by `toISOString`) are modelled as natural numbers:
`toISOString` is injective and order-preserving from instants to the
lexicographically ordered UTC strings the source stores, so ordering and
equality facts transfer.  JavaScript's `JSON.parse` is a platform builtin
with no source in the repository; a stored string is modelled by its
outcome under `JSON.parse` (empty, parses to a roster value, or throws),
and a thrown exception is an `Except.error`.
-/

/-- Visitor status, from `types.ts`: the literal union
`'checked-in' | 'checked-out'`. -/
inductive VisitorStatus where
  | checkedIn
  | checkedOut
deriving DecidableEq, Repr

/-- The TS string literal carried by a status value. -/
def VisitorStatus.str : VisitorStatus → String
  | .checkedIn => "checked-in"
  | .checkedOut => "checked-out"

/-- Filter type, from `types.ts`: the literal union
`'all' | 'checked-in' | 'checked-out'`. -/
inductive FilterType where
  | all
  | checkedIn
  | checkedOut
deriving DecidableEq, Repr

/-- The TS string literal carried by a filter value. -/
def FilterType.str : FilterType → String
  | .all => "all"
  | .checkedIn => "checked-in"
  | .checkedOut => "checked-out"

/-- Visitor record, from `types.ts` (`interface Visitor`); timestamps are
instants as explained in the file header. -/
structure Visitor where
  id : Nat
  name : String
  company : String
  contactPerson : String
  reason : String
  badge : String
  checkInTime : Nat
  checkOutTime : Option Nat
  status : VisitorStatus
deriving DecidableEq, Repr

/-- Form data, from `types.ts` (`interface VisitorFormData`), the shape of
the `VisitorForm` component state. -/
structure VisitorFormData where
  name : String
  company : String
  contactPerson : String
  reason : String
  badge : String
deriving DecidableEq, Repr

/-- From `App.tsx`: `addVisitor` runs
`setVisitors(prev => [visitor, ...prev])`, a prepend. -/
def addVisitor (prev : List Visitor) (visitor : Visitor) : List Visitor :=
  visitor :: prev

/-- From `App.tsx`: `checkOutVisitor` maps over the roster, overwriting
`status` and `checkOutTime` of every record whose `id` matches the
argument; `now` is the instant `new Date()` observed inside the call.
There is no lookup failure and no already-checked-out check. -/
def checkOutVisitor (prev : List Visitor) (i : Nat) (now : Nat) : List Visitor :=
  prev.map fun visitor =>
    if visitor.id = i then
      { visitor with status := .checkedOut, checkOutTime := some now }
    else
      visitor

/-- Character-level model of matching `pat` at the head of `s` (the inner
step of JS `String.prototype.includes`). -/
def startsWithL : List Char → List Char → Bool
  | [], _ => true
  | _ :: _, [] => false
  | a :: pat, b :: s => a == b && startsWithL pat s

/-- Character-level model of JS `String.prototype.includes`: `pat` occurs
contiguously somewhere in the second list. -/
def hasSubL (pat : List Char) : List Char → Bool
  | [] => startsWithL pat []
  | b :: s => startsWithL pat (b :: s) || hasSubL pat s

/-- JS `s.includes(pat)`. -/
def jsIncludes (s pat : String) : Bool :=
  hasSubL pat.toList s.toList

/-- JS `s.toLowerCase()`, as the character-wise case mapping (stated over
the character list so that it evaluates structurally). -/
def jsToLower (s : String) : String :=
  String.mk (s.data.map Char.toLower)

/-- From `App.tsx` (`filteredVisitors`): `matchesSearch` lowercases both
sides and asks `includes` on `name`, `company` and `contactPerson`. -/
def matchesSearch (visitor : Visitor) (searchTerm : String) : Bool :=
  jsIncludes (jsToLower visitor.name) (jsToLower searchTerm) ||
  jsIncludes (jsToLower visitor.company) (jsToLower searchTerm) ||
  jsIncludes (jsToLower visitor.contactPerson) (jsToLower searchTerm)

/-- From `App.tsx` (`filteredVisitors`): `matchesFilter` is
`filter === 'all' || visitor.status === filter`, a comparison of the TS
string literals. -/
def matchesFilter (visitor : Visitor) (filter : FilterType) : Bool :=
  filter.str == "all" || visitor.status.str == filter.str

/-- From `App.tsx`: the `filteredVisitors` projection,
`visitors.filter(v => matchesSearch && matchesFilter)`. -/
def filteredVisitors (visitors : List Visitor) (searchTerm : String)
    (filter : FilterType) : List Visitor :=
  visitors.filter fun visitor =>
    matchesSearch visitor searchTerm && matchesFilter visitor filter

/-- The stored `localStorage` string classified by its outcome under the
platform builtin `JSON.parse`: the empty string, a nonempty string that
parses to a roster array, or a nonempty string on which the parse throws.
(`JSON.parse` performs no schema validation, so `parsable` may carry any
roster value, well-formed or not.) -/
inductive StoredString where
  | emptyStr
  | parsable (r : List Visitor)
  | unparsable
deriving DecidableEq, Repr

/-- Platform builtin `JSON.parse` applied to a stored string, by outcome;
`Except.error` is a thrown `SyntaxError`. -/
def jsonParse : StoredString → Except String (List Visitor)
  | .emptyStr => .error "SyntaxError: Unexpected end of JSON input"
  | .parsable r => .ok r
  | .unparsable => .error "SyntaxError: Unexpected token"

/-- JS truthiness of `saved : string | null`: `null` and the empty string
are falsy, every other string is truthy. -/
def jsTruthyStr : Option StoredString → Bool
  | none => false
  | some .emptyStr => false
  | some (.parsable _) => true
  | some .unparsable => true

/-- From `App.tsx`, the `useState` initializer:
`const saved = localStorage.getItem(STORAGE_KEY); return saved ? JSON.parse(saved) : []`.
An `Except.error` result means the `JSON.parse` exception escapes the
initializer (nothing catches it). -/
def initVisitors (saved : Option StoredString) : Except String (List Visitor) :=
  if jsTruthyStr saved then
    match saved with
    | some s => jsonParse s
    | none => .ok []
  else
    .ok []

/-- The German alert text in `VisitorForm.handleSubmit`. -/
def pflichtfelderMsg : String := "Bitte füllen Sie alle Pflichtfelder aus."

/-- The guard of `VisitorForm.handleSubmit`:
`!formData.name || !formData.contactPerson || !formData.reason`; for a JS
string, falsy means empty. -/
def requiredMissing (formData : VisitorFormData) : Bool :=
  formData.name == "" || formData.contactPerson == "" ||
    formData.reason == ""

/-- The record literal built by `VisitorForm.handleSubmit` on a valid
submit: the spread of the form data plus `id: Date.now()`,
`checkInTime: new Date().toISOString()`, `checkOutTime: null` and
`status: 'checked-in'`; `now` is the instant observed during the submit
(`Date.now()` and `toISOString` read the same clock). -/
def newVisitor (formData : VisitorFormData) (now : Nat) : Visitor :=
  { id := now
    name := formData.name
    company := formData.company
    contactPerson := formData.contactPerson
    reason := formData.reason
    badge := formData.badge
    checkInTime := now
    checkOutTime := none
    status := .checkedIn }

/-- From `VisitorForm` (`handleSubmit`): rejects when a required field is
falsy (empty), showing one fixed alert text; otherwise passes the new
record to `onAddVisitor`. -/
def handleSubmit (formData : VisitorFormData) (now : Nat) :
    Except String Visitor :=
  if requiredMissing formData then
    .error pflichtfelderMsg
  else
    .ok (newVisitor formData now)

/-- User-level events driving the `App` state: a form submit (check-in
attempt) and a check-out button click, each carrying the clock instant it
observes. -/
inductive Event where
  | submit (formData : VisitorFormData) (now : Nat)
  | clickCheckOut (i : Nat) (now : Nat)
deriving DecidableEq, Repr

/-- One UI event applied to the roster state: a submit runs `handleSubmit`
and prepends via `addVisitor` on success, leaving the state alone on
validation failure; a check-out click runs `checkOutVisitor`. -/
def step (visitors : List Visitor) : Event → List Visitor
  | .submit formData now =>
    match handleSubmit formData now with
    | .ok v => addVisitor visitors v
    | .error _ => visitors
  | .clickCheckOut i now => checkOutVisitor visitors i now

/-- Iterated `step` over a list of events. -/
def run (visitors : List Visitor) (events : List Event) : List Visitor :=
  events.foldl step visitors

/-- The persistence write an event triggers, if any: the `useEffect` on
`[visitors]` fires exactly when `setVisitors` was called with a new array,
and then serializes the full roster.  A failed validation performs no
state update, hence no write; a check-out click always builds a fresh
array, hence always writes. -/
def stepWrite (visitors : List Visitor) : Event → Option (List Visitor)
  | .submit formData now =>
    match handleSubmit formData now with
    | .ok v => some (addVisitor visitors v)
    | .error _ => none
  | .clickCheckOut i now => some (checkOutVisitor visitors i now)

/-! ### Spec-side definitions

These follow the wording of the specification and are deliberately stated
by decomposition or as inductive relations, independently of the code's
loops, so that the theorems below genuinely compare the two. -/

/-- Spec 4.2: the search term is a case-insensitive substring of the
field, i.e. the lowercased field decomposes around the lowercased term. -/
def SpecCiSubstr (term field : String) : Prop :=
  ∃ pre post : List Char,
    (jsToLower field).toList = pre ++ (jsToLower term).toList ++ post

/-- Spec 4.2 search predicate: the empty term matches everything,
otherwise the term must match any of the three searchable fields. -/
def SpecSearchMatch (visitor : Visitor) (term : String) : Prop :=
  term = "" ∨ SpecCiSubstr term visitor.name ∨
    SpecCiSubstr term visitor.company ∨
    SpecCiSubstr term visitor.contactPerson

/-- Spec 4.2 filter predicate: `All` passes every record, the other two
pass exactly the records of matching status. -/
def SpecFilterMatch (visitor : Visitor) (filter : FilterType) : Prop :=
  filter = .all ∨
    (filter = .checkedIn ∧ visitor.status = .checkedIn) ∨
    (filter = .checkedOut ∧ visitor.status = .checkedOut)

/-- The output holds exactly the input records satisfying `P`, in the
input's relative order: the spec's notion of a projection result
("a record is included only if it passes BOTH predicates"; "output
preserves the roster's relative ordering"). -/
inductive SelectedBy (P : Visitor → Prop) : List Visitor → List Visitor → Prop where
  | nil : SelectedBy P [] []
  | keep {v : Visitor} {l out : List Visitor} :
      P v → SelectedBy P l out → SelectedBy P (v :: l) (v :: out)
  | drop {v : Visitor} {l out : List Visitor} :
      ¬ P v → SelectedBy P l out → SelectedBy P (v :: l) out

/-- Spec section 3 invariant: the stored status agrees with the presence
of the check-out timestamp. -/
def StatusConsistent (v : Visitor) : Prop :=
  v.status = .checkedOut ↔ v.checkOutTime ≠ none

/-- Spec section 3 invariant: a record departed no earlier than it
arrived. -/
def OutAfterIn (v : Visitor) : Prop :=
  ∀ t, v.checkOutTime = some t → v.checkInTime ≤ t

/-- The `Date.now()` instants observed by the submit events of a trace. -/
def submitTimes : List Event → List Nat
  | [] => []
  | .submit _ now :: es => now :: submitTimes es
  | .clickCheckOut _ _ :: es => submitTimes es

/-- The record ids of a roster. -/
def rosterIds (roster : List Visitor) : List Nat :=
  roster.map Visitor.id

/-- The clock instant an event observes. -/
def eventTime : Event → Nat
  | .submit _ now => now
  | .clickCheckOut _ now => now

/-! ### Test fixtures -/

/-- A valid check-in form (spec section 8 scenario data). -/
def janeForm : VisitorFormData :=
  { name := "Jane Doe", company := "", contactPerson := "Bob",
    reason := "Meeting", badge := "" }

/-- A second valid check-in form. -/
def bobForm : VisitorFormData :=
  { name := "Bob Smith", company := "ACME", contactPerson := "Ann",
    reason := "Delivery", badge := "B-001" }

/-- A check-in form whose required `name` is empty. -/
def emptyNameForm : VisitorFormData :=
  { name := "", company := "ACME", contactPerson := "Bob",
    reason := "Meeting", badge := "" }

/-- A check-in form whose required `reason` is empty. -/
def emptyReasonForm : VisitorFormData :=
  { name := "Jane", company := "ACME", contactPerson := "Bob",
    reason := "", badge := "" }

/-- An already-checked-out record with id 1. -/
def vOut : Visitor :=
  { id := 1, name := "Jane Doe", company := "", contactPerson := "Bob",
    reason := "Meeting", badge := "", checkInTime := 1,
    checkOutTime := some 2, status := .checkedOut }

/-- The record produced by checking Jane in at instant 1 and out at
instant 2 (equal to `vOut`; named separately for readability). -/
def janeOutRecord : Visitor :=
  { id := 1, name := "Jane Doe", company := "", contactPerson := "Bob",
    reason := "Meeting", badge := "", checkInTime := 1,
    checkOutTime := some 2, status := .checkedOut }

/-- The record produced by checking Jane in at instant 5 and out at the
EARLIER instant 3 (a clock that went backwards). -/
def janeLateOutRecord : Visitor :=
  { id := 5, name := "Jane Doe", company := "", contactPerson := "Bob",
    reason := "Meeting", badge := "", checkInTime := 5,
    checkOutTime := some 3, status := .checkedOut }

/-- A stored record whose explicit status contradicts its `checkOutTime`;
its JSON serialization (status `"checked-in"` together with a non-null
`checkOutTime`) is accepted by `JSON.parse`, which performs no
validation. -/
def inconsistentStored : Visitor :=
  { id := 1, name := "Jane Doe", company := "", contactPerson := "Bob",
    reason := "Meeting", badge := "", checkInTime := 1,
    checkOutTime := some 2, status := .checkedIn }

/-! ### Substring characterization -/

theorem startsWithL_iff (pat s : List Char) :
    startsWithL pat s = true ↔ ∃ post, s = pat ++ post := by
  induction pat generalizing s with
  | nil => simp [startsWithL]
  | cons a pat ih =>
    cases s with
    | nil => simp [startsWithL]
    | cons b s =>
      simp only [startsWithL, Bool.and_eq_true, beq_iff_eq, ih,
        List.cons_append, List.cons.injEq]
      constructor
      · rintro ⟨rfl, post, rfl⟩
        exact ⟨post, rfl, rfl⟩
      · rintro ⟨post, rfl, rfl⟩
        exact ⟨rfl, post, rfl⟩

theorem hasSubL_iff (pat s : List Char) :
    hasSubL pat s = true ↔ ∃ pre post, s = pre ++ pat ++ post := by
  induction s with
  | nil =>
    simp only [hasSubL, startsWithL_iff]
    constructor
    · rintro ⟨post, h⟩
      exact ⟨[], post, h⟩
    · rintro ⟨pre, post, h⟩
      rcases List.append_eq_nil.mp (List.append_eq_nil.mp h.symm).1 with ⟨h1, h2⟩
      exact ⟨post, by simp [h1, h2] at h ⊢; exact h⟩
  | cons b s ih =>
    simp only [hasSubL, Bool.or_eq_true, startsWithL_iff, ih]
    constructor
    · rintro (⟨post, h⟩ | ⟨pre, post, rfl⟩)
      · exact ⟨[], post, by simpa using h⟩
      · exact ⟨b :: pre, post, by simp⟩
    · rintro ⟨pre, post, h⟩
      cases pre with
      | nil => exact Or.inl ⟨post, by simpa using h⟩
      | cons c pre =>
        rcases List.cons.injEq .. ▸ h with ⟨rfl, h2⟩
        exact Or.inr ⟨pre, post, by simpa using h2⟩

theorem hasSubL_nil (s : List Char) : hasSubL [] s = true := by
  cases s <;> simp [hasSubL, startsWithL]

theorem specCiSubstr_empty (field : String) : SpecCiSubstr "" field :=
  ⟨[], (jsToLower field).toList, rfl⟩

/-- The code's lowered `includes` test coincides with the spec's
substring decomposition. -/
theorem jsIncludes_lower_iff (term field : String) :
    jsIncludes (jsToLower field) (jsToLower term) = true ↔
      SpecCiSubstr term field :=
  hasSubL_iff (jsToLower term).toList (jsToLower field).toList

theorem matchesSearch_iff (visitor : Visitor) (term : String) :
    matchesSearch visitor term = true ↔ SpecSearchMatch visitor term := by
  simp only [matchesSearch, Bool.or_eq_true, jsIncludes_lower_iff]
  unfold SpecSearchMatch
  constructor
  · rintro ((h | h) | h)
    · exact Or.inr (Or.inl h)
    · exact Or.inr (Or.inr (Or.inl h))
    · exact Or.inr (Or.inr (Or.inr h))
  · rintro (rfl | h | h | h)
    · exact Or.inl (Or.inl (specCiSubstr_empty _))
    · exact Or.inl (Or.inl h)
    · exact Or.inl (Or.inr h)
    · exact Or.inr h

theorem matchesFilter_iff (visitor : Visitor) (filter : FilterType) :
    matchesFilter visitor filter = true ↔ SpecFilterMatch visitor filter := by
  cases filter <;> cases h : visitor.status <;>
    simp [matchesFilter, SpecFilterMatch, FilterType.str, VisitorStatus.str, h]

/-! ### Basic step equations and helper lemmas -/

theorem run_cons (roster : List Visitor) (e : Event) (es : List Event) :
    run roster (e :: es) = run (step roster e) es := rfl

theorem step_submit_invalid (roster : List Visitor)
    (formData : VisitorFormData) (now : Nat)
    (h : requiredMissing formData = true) :
    step roster (.submit formData now) = roster := by
  simp [step, handleSubmit, h]

theorem step_submit_valid (roster : List Visitor)
    (formData : VisitorFormData) (now : Nat)
    (h : requiredMissing formData = false) :
    step roster (.submit formData now) = newVisitor formData now :: roster := by
  simp [step, handleSubmit, h, addVisitor]

theorem checkOutVisitor_not_mem (roster : List Visitor) (i now : Nat)
    (h : ∀ v ∈ roster, v.id ≠ i) : checkOutVisitor roster i now = roster := by
  induction roster with
  | nil => rfl
  | cons v vs ih =>
    have h1 : v.id ≠ i := h v (List.mem_cons_self v vs)
    have h2 := ih fun w hw => h w (List.mem_cons_of_mem v hw)
    simp only [checkOutVisitor, List.map_cons, if_neg h1]
    exact congrArg (v :: ·) h2

theorem checkOutVisitor_mem_update (roster : List Visitor) (i now : Nat)
    (v : Visitor) (hv : v ∈ roster) (hid : v.id = i) :
    { v with status := .checkedOut, checkOutTime := some now } ∈
      checkOutVisitor roster i now := by
  have h : (if v.id = i then
        { v with status := VisitorStatus.checkedOut,
                 checkOutTime := some now }
      else v) =
      { v with status := VisitorStatus.checkedOut,
               checkOutTime := some now } := if_pos hid
  exact h ▸ List.mem_map_of_mem _ hv

theorem forall2_map_self {α β : Type _} (f : α → β) (R : α → β → Prop) :
    ∀ l : List α, (∀ a ∈ l, R a (f a)) → List.Forall₂ R l (l.map f)
  | [], _ => List.Forall₂.nil
  | a :: l, h =>
    List.Forall₂.cons (h a (List.mem_cons_self a l))
      (forall2_map_self f R l fun b hb => h b (List.mem_cons_of_mem a hb))

theorem rosterIds_checkOutVisitor (roster : List Visitor) (i now : Nat) :
    rosterIds (checkOutVisitor roster i now) = rosterIds roster := by
  unfold rosterIds checkOutVisitor
  rw [List.map_map]
  refine List.map_congr_left ?_
  intro v _
  by_cases h : v.id = i <;> simp [Function.comp, h]

/-! ### Claim theorems: the projection (C5, C6) -/

/-- C5: for every roster, search term and status filter, the projection
returns exactly the records passing both the spec's search predicate
(case-insensitive substring on name, company and contactPerson, with the
empty term matching every record) and the spec's filter predicate, in the
roster's relative order (the `SelectedBy` relation fixes membership,
multiplicity and order at once). -/
theorem c5_project_exact (visitors : List Visitor) (searchTerm : String)
    (filter : FilterType) :
    SelectedBy
      (fun v => SpecSearchMatch v searchTerm ∧ SpecFilterMatch v filter)
      visitors (filteredVisitors visitors searchTerm filter) := by
  induction visitors with
  | nil => exact SelectedBy.nil
  | cons v vs ih =>
    by_cases hP : SpecSearchMatch v searchTerm ∧ SpecFilterMatch v filter
    · have hb : (matchesSearch v searchTerm && matchesFilter v filter) = true := by
        rw [Bool.and_eq_true, matchesSearch_iff, matchesFilter_iff]
        exact hP
      have heq : filteredVisitors (v :: vs) searchTerm filter =
          v :: filteredVisitors vs searchTerm filter := by
        simp [filteredVisitors, List.filter_cons, hb]
      rw [heq]
      exact SelectedBy.keep hP ih
    · have hb : (matchesSearch v searchTerm && matchesFilter v filter) = false := by
        apply Bool.eq_false_iff.mpr
        intro hcontra
        rw [Bool.and_eq_true, matchesSearch_iff, matchesFilter_iff] at hcontra
        exact hP hcontra
      have heq : filteredVisitors (v :: vs) searchTerm filter =
          filteredVisitors vs searchTerm filter := by
        simp [filteredVisitors, List.filter_cons, hb]
      rw [heq]
      exact SelectedBy.drop hP ih

/-- C6: the projection applied with the empty search term and the All
filter returns the full roster unchanged and in the same order (identity
law). -/
theorem c6_project_identity (visitors : List Visitor) :
    filteredVisitors visitors "" .all = visitors := by
  apply List.filter_eq_self.mpr
  intro v _
  have hs : matchesSearch v "" = true := by
    simp [matchesSearch, jsIncludes,
      show (jsToLower "").data = ([] : List Char) from rfl, hasSubL_nil]
  have hf : matchesFilter v .all = true := by
    simp [matchesFilter, FilterType.str]
  simp [hs, hf]

/-! ### Claim theorems: check-out behavior (C1, C10) -/

/-- C1 counterexample: check-out raises nothing.  A record checked out at
instant 2 is checked out again at instant 3; instead of an
AlreadyCheckedOutError the second call succeeds and silently overwrites
checkOutTime (the claim's raises-iff contract is false: a second checkOut
on the same id is not an error). -/
theorem c1_checkOut_raises_cex :
    run [] [Event.submit janeForm 1, Event.clickCheckOut 1 2] =
      [{ id := 1, name := "Jane Doe", company := "", contactPerson := "Bob",
         reason := "Meeting", badge := "", checkInTime := 1,
         checkOutTime := some 2, status := .checkedOut }] ∧
    run [] [Event.submit janeForm 1, Event.clickCheckOut 1 2,
        Event.clickCheckOut 1 3] =
      [{ id := 1, name := "Jane Doe", company := "", contactPerson := "Bob",
         reason := "Meeting", badge := "", checkInTime := 1,
         checkOutTime := some 3, status := .checkedOut }] :=
  ⟨rfl, rfl⟩

/-- C1 amended: checkOut is total and never fails.  An id with no matching
record leaves the roster unchanged (no NotFoundError is raised), and every
record whose id matches — including one already checked out — is
overwritten to status CheckedOut with the freshly observed instant (no
AlreadyCheckedOutError; a second checkOut re-stamps instead of failing). -/
theorem c1_checkOut_total (roster : List Visitor) (i now : Nat) :
    ((∀ v ∈ roster, v.id ≠ i) → checkOutVisitor roster i now = roster) ∧
    (∀ v ∈ roster, v.id = i →
      { v with status := .checkedOut, checkOutTime := some now } ∈
        checkOutVisitor roster i now) := by
  refine ⟨checkOutVisitor_not_mem roster i now, ?_⟩
  intro v hv hid
  exact checkOutVisitor_mem_update roster i now v hv hid

/-- Concrete instance of the amended check-out contract: re-checking out
the already-checked-out record of `[vOut]` succeeds and re-stamps it. -/
theorem c1_checkOut_total_witness :
    { vOut with status := VisitorStatus.checkedOut, checkOutTime := some 7 } ∈
      checkOutVisitor [vOut] 1 7 :=
  (c1_checkOut_total [vOut] 1 7).2 vOut (by decide) (by decide)

/-- C10: the check-out operation changes at most the records whose id
matches: positionally (Forall₂, which also fixes length and order), a
record with a different id is returned unchanged, and a record with the
matching id keeps its id, name, company, contactPerson, reason, badge and
checkInTime — only status and checkOutTime are written; and if no record
has the given id the roster is returned completely unchanged. -/
theorem c10_checkOut_frame (roster : List Visitor) (i now : Nat) :
    List.Forall₂ (fun v w =>
      (v.id ≠ i → w = v) ∧
      (v.id = i →
        w = { v with status := VisitorStatus.checkedOut, checkOutTime := some now }))
      roster (checkOutVisitor roster i now) ∧
    ((∀ v ∈ roster, v.id ≠ i) → checkOutVisitor roster i now = roster) := by
  constructor
  · apply forall2_map_self
    intro v _
    constructor
    · intro hne
      exact if_neg hne
    · intro heq
      exact if_pos heq
  · exact checkOutVisitor_not_mem roster i now

/-- Concrete instance of the frame property: an id matching no record of
`[vOut]` leaves the roster untouched. -/
theorem c10_checkOut_frame_witness :
    checkOutVisitor [vOut] 9 7 = [vOut] :=
  (c10_checkOut_frame [vOut] 9 7).2 (by decide)

/-! ### Claim theorems: initialization (C2) -/

/-- C2 counterexample: a present nonempty stored string on which
JSON.parse throws (for example the literal text `not json`) makes the
initializer propagate the exception instead of yielding the empty roster,
so a parse failure IS escalated to the caller. -/
theorem c2_init_parse_error_cex :
    initVisitors (some .unparsable) =
      .error "SyntaxError: Unexpected token" ∧
    initVisitors (some .unparsable) ≠ .ok [] :=
  ⟨rfl, fun h => Except.noConfusion h⟩

/-- C2 amended: the initializer yields the empty roster when the stored
value is absent or is the empty string (both falsy); a present parsable
value is returned exactly as parsed, without validation; a present
unparsable value makes the JSON.parse exception escape to the caller
instead of being mapped to the empty roster. -/
theorem c2_init_amended :
    initVisitors none = .ok [] ∧
    initVisitors (some .emptyStr) = .ok [] ∧
    (∀ r : List Visitor, initVisitors (some (.parsable r)) = .ok r) ∧
    ∃ e, initVisitors (some .unparsable) = .error e :=
  ⟨rfl, rfl, fun _ => rfl, ⟨"SyntaxError: Unexpected token", rfl⟩⟩

/-! ### Claim theorems: check-in validation (C3) and valid check-in (C4) -/

/-- C3 counterexample: the validation failure message is one fixed
generic alert.  A submit missing `name` and a submit missing `reason`
produce the identical message, and that message does not contain the text
`name` or `reason` even case-insensitively — so the error does not name
the missing field(s). -/
theorem c3_validation_not_naming_cex :
    handleSubmit emptyNameForm 10 = .error pflichtfelderMsg ∧
    handleSubmit emptyReasonForm 10 = .error pflichtfelderMsg ∧
    jsIncludes (jsToLower pflichtfelderMsg) (jsToLower "name") = false ∧
    jsIncludes (jsToLower pflichtfelderMsg) (jsToLower "reason") = false := by
  refine ⟨rfl, rfl, ?_, ?_⟩ <;> decide

/-- C3 amended: whenever a required field (name, contactPerson or reason)
is the empty string, the submit fails with the single generic validation
message (which does not name the missing fields), the roster is left
exactly as it was, and no persistence write occurs. -/
theorem c3_invalid_submit_noop (roster : List Visitor)
    (formData : VisitorFormData) (now : Nat)
    (h : formData.name = "" ∨ formData.contactPerson = "" ∨
      formData.reason = "") :
    handleSubmit formData now = .error pflichtfelderMsg ∧
    step roster (.submit formData now) = roster ∧
    stepWrite roster (.submit formData now) = none := by
  have hb : requiredMissing formData = true := by
    rcases h with h | h | h <;> simp [requiredMissing, h]
  refine ⟨?_, ?_, ?_⟩ <;> simp [handleSubmit, step, stepWrite, hb]

/-- Concrete instance of the amended validation behavior: a submit with
empty name fails with the generic message, leaves the roster untouched
and writes nothing. -/
theorem c3_invalid_submit_noop_witness :
    handleSubmit emptyNameForm 10 = .error pflichtfelderMsg ∧
    step [vOut] (.submit emptyNameForm 10) = [vOut] ∧
    stepWrite [vOut] (.submit emptyNameForm 10) = none :=
  c3_invalid_submit_noop [vOut] emptyNameForm 10 (Or.inl rfl)

/-- C4: for every valid check-in input (name, contactPerson, reason all
non-empty), the submit returns a record with status CheckedIn and
checkOutTime absent, and the new roster is exactly that record prepended
to the front of the previous roster (newest-first). -/
theorem c4_checkIn_valid (roster : List Visitor)
    (formData : VisitorFormData) (now : Nat)
    (h1 : formData.name ≠ "") (h2 : formData.contactPerson ≠ "")
    (h3 : formData.reason ≠ "") :
    handleSubmit formData now = .ok (newVisitor formData now) ∧
    (newVisitor formData now).status = .checkedIn ∧
    (newVisitor formData now).checkOutTime = none ∧
    step roster (.submit formData now) = newVisitor formData now :: roster := by
  have hb : requiredMissing formData = false := by
    simp [requiredMissing, h1, h2, h3]
  exact ⟨by simp [handleSubmit, hb], rfl, rfl,
    step_submit_valid roster formData now hb⟩

/-- Concrete instance of a valid check-in: Jane's record lands at the
front with status checked-in and no checkOutTime. -/
theorem c4_checkIn_valid_witness :
    step [vOut] (.submit janeForm 3) = newVisitor janeForm 3 :: [vOut] :=
  (c4_checkIn_valid [vOut] janeForm 3 (by decide) (by decide) (by decide)).2.2.2

/-! ### Claim theorems: id uniqueness (C7) -/

/-- C7 counterexample: two check-ins observing the same `Date.now()`
millisecond receive the same id, so a reachable roster holds two records
whose ids coincide — ids are not unique for two check-ins performed in
immediate succession. -/
theorem c7_id_collision_cex :
    (run [] [Event.submit janeForm 5, Event.submit bobForm 5]).map
      Visitor.id = [5, 5] ∧
    ¬ ((run [] [Event.submit janeForm 5, Event.submit bobForm 5]).map
      Visitor.id).Nodup := by
  refine ⟨rfl, ?_⟩
  decide

theorem run_ids_nodup (events : List Event) :
    ∀ roster : List Visitor, (rosterIds roster).Nodup →
      (submitTimes events).Nodup →
      (∀ t ∈ rosterIds roster, t ∉ submitTimes events) →
      (rosterIds (run roster events)).Nodup := by
  induction events with
  | nil =>
    intro roster hr _ _
    exact hr
  | cons e es ih =>
    intro roster hr he hd
    cases e with
    | submit formData now =>
      rw [run_cons]
      by_cases hv : requiredMissing formData = true
      · rw [step_submit_invalid roster formData now hv]
        refine ih roster hr (List.nodup_cons.mp he).2 ?_
        intro t ht hmem
        exact hd t ht (List.mem_cons_of_mem _ hmem)
      · have hv' : requiredMissing formData = false := by
          simpa using hv
        rw [step_submit_valid roster formData now hv']
        have hids : rosterIds (newVisitor formData now :: roster) =
            now :: rosterIds roster := rfl
        refine ih (newVisitor formData now :: roster) ?_
          (List.nodup_cons.mp he).2 ?_
        · rw [hids]
          refine List.nodup_cons.mpr ⟨?_, hr⟩
          intro hmem
          exact hd now hmem (List.mem_cons_self _ _)
        · rw [hids]
          intro t ht
          rcases List.mem_cons.mp ht with rfl | ht'
          · exact (List.nodup_cons.mp he).1
          · intro hmem
            exact hd t ht' (List.mem_cons_of_mem _ hmem)
    | clickCheckOut i now =>
      rw [run_cons]
      have hstep : step roster (Event.clickCheckOut i now) =
          checkOutVisitor roster i now := rfl
      rw [hstep]
      refine ih (checkOutVisitor roster i now) ?_ he ?_
      · rw [rosterIds_checkOutVisitor]
        exact hr
      · rw [rosterIds_checkOutVisitor]
        exact hd

/-- C7 amended: starting from the empty roster, if the `Date.now()`
instants observed by the check-in submits of a trace are pairwise
distinct, then the ids of the resulting roster are pairwise distinct
(check-out never changes an id).  Uniqueness can fail only when two
check-ins observe the same millisecond, as in the counterexample. -/
theorem c7_ids_nodup (events : List Event)
    (h : (submitTimes events).Nodup) :
    (rosterIds (run [] events)).Nodup :=
  run_ids_nodup events [] List.nodup_nil h
    (fun t ht => absurd ht (List.not_mem_nil t))

/-- Concrete instance of id uniqueness under distinct clock readings. -/
theorem c7_ids_nodup_witness :
    (rosterIds (run []
      [Event.submit janeForm 1, Event.submit bobForm 2])).Nodup :=
  c7_ids_nodup [Event.submit janeForm 1, Event.submit bobForm 2] (by decide)

/-! ### Claim theorems: status/checkOutTime agreement (C8) -/

/-- C8 counterexample: the initializer performs no validation, so a
stored roster holding a record whose status says checked-in while its
checkOutTime is non-null (a string JSON.parse happily accepts) is
returned as-is: the invariant is not preserved by loading at
initialize. -/
theorem c8_init_unvalidated_cex :
    initVisitors (some (.parsable [inconsistentStored])) =
      .ok [inconsistentStored] ∧
    ¬ StatusConsistent inconsistentStored := by
  refine ⟨rfl, ?_⟩
  intro h
  exact VisitorStatus.noConfusion
    (h.mpr fun hnone => Option.noConfusion hnone)

theorem step_statusConsistent (roster : List Visitor) (e : Event)
    (h : ∀ v ∈ roster, StatusConsistent v) :
    ∀ v ∈ step roster e, StatusConsistent v := by
  cases e with
  | submit formData now =>
    by_cases hv : requiredMissing formData = true
    · rw [step_submit_invalid roster formData now hv]
      exact h
    · have hv' : requiredMissing formData = false := by
        simpa using hv
      rw [step_submit_valid roster formData now hv']
      intro v hvmem
      rcases List.mem_cons.mp hvmem with rfl | hvmem'
      · simp [StatusConsistent, newVisitor]
      · exact h v hvmem'
  | clickCheckOut i now =>
    intro v hvmem
    rcases List.mem_map.mp hvmem with ⟨w, hw, rfl⟩
    by_cases hwi : w.id = i
    · rw [if_pos hwi]
      simp [StatusConsistent]
    · rw [if_neg hwi]
      exact h w hw

theorem run_statusConsistent (events : List Event) :
    ∀ roster : List Visitor, (∀ v ∈ roster, StatusConsistent v) →
      ∀ v ∈ run roster events, StatusConsistent v := by
  induction events with
  | nil =>
    intro roster h
    exact h
  | cons e es ih =>
    intro roster h
    exact ih (step roster e) (step_statusConsistent roster e h)

/-- C8 amended: initialize from absent storage establishes the
status/checkOutTime agreement (empty roster), and every operation
(check-in, check-out) preserves it from any roster satisfying it; but
initialize performs no validation of a parsable stored roster, so states
loaded from storage carry the invariant only when the stored roster
already satisfied it (the counterexample shows a violating load). -/
theorem c8_status_invariant (events : List Event) (r0 : List Visitor)
    (h0 : ∀ v ∈ r0, StatusConsistent v) :
    (∀ r : List Visitor, initVisitors none = .ok r →
      ∀ v ∈ r, StatusConsistent v) ∧
    (∀ v ∈ run r0 events, StatusConsistent v) := by
  constructor
  · intro r hr
    cases hr
    intro v hv
    exact absurd hv (List.not_mem_nil v)
  · exact run_statusConsistent events r0 h0

/-- Concrete instance of the preserved invariant: Jane checked in at 1
and out at 2 yields a consistent record. -/
theorem c8_status_invariant_witness :
    StatusConsistent janeOutRecord :=
  (c8_status_invariant [Event.submit janeForm 1, Event.clickCheckOut 1 2] []
    (fun v hv => absurd hv (List.not_mem_nil v))).2 janeOutRecord (by decide)

/-! ### Claim theorems: check-out after check-in (C9) -/

/-- C9 counterexample: the code stamps checkOutTime with the clock at the
moment of the click and never compares it with checkInTime, so when the
clock reading at check-out (3) is below the one at check-in (5) — which
the claim's "for all timing orders" explicitly allows — the reachable
checked-out record has checkOutTime < checkInTime. -/
theorem c9_clock_order_cex :
    run [] [Event.submit janeForm 5, Event.clickCheckOut 5 3] =
      [janeLateOutRecord] ∧
    ¬ OutAfterIn janeLateOutRecord := by
  refine ⟨rfl, ?_⟩
  intro h
  exact absurd (h 3 rfl) (by decide)

theorem run_outAfterIn (events : List Event) :
    ∀ roster : List Visitor,
      (events.map eventTime).Pairwise (· ≤ ·) →
      (∀ v ∈ roster, OutAfterIn v) →
      (∀ v ∈ roster, ∀ e ∈ events, v.checkInTime ≤ eventTime e) →
      ∀ v ∈ run roster events, OutAfterIn v := by
  induction events with
  | nil =>
    intro roster _ h _
    exact h
  | cons e es ih =>
    intro roster hp h hb
    have hp2 := List.pairwise_cons.mp hp
    cases e with
    | submit formData now =>
      rw [run_cons]
      by_cases hv : requiredMissing formData = true
      · rw [step_submit_invalid roster formData now hv]
        refine ih roster hp2.2 h ?_
        intro v hvm e' he'
        exact hb v hvm e' (List.mem_cons_of_mem _ he')
      · have hv' : requiredMissing formData = false := by
          simpa using hv
        rw [step_submit_valid roster formData now hv']
        refine ih _ hp2.2 ?_ ?_
        · intro v hvm
          rcases List.mem_cons.mp hvm with rfl | hvm'
          · intro t ht
            exact absurd ht (by simp [newVisitor])
          · exact h v hvm'
        · intro v hvm e' he'
          rcases List.mem_cons.mp hvm with rfl | hvm'
          · have hle : eventTime (Event.submit formData now) ≤ eventTime e' :=
              hp2.1 _ (List.mem_map_of_mem eventTime he')
            simpa [newVisitor, eventTime] using hle
          · exact hb v hvm' e' (List.mem_cons_of_mem _ he')
    | clickCheckOut i now =>
      rw [run_cons]
      have hstep : step roster (Event.clickCheckOut i now) =
          checkOutVisitor roster i now := rfl
      rw [hstep]
      refine ih _ hp2.2 ?_ ?_
      · intro v hvm
        rcases List.mem_map.mp hvm with ⟨w, hw, rfl⟩
        by_cases hwi : w.id = i
        · rw [if_pos hwi]
          intro t ht
          have h1 : w.checkInTime ≤ now :=
            hb w hw (Event.clickCheckOut i now) (List.mem_cons_self _ _)
          have h2 : now = t := by simpa using ht
          exact h2 ▸ h1
        · rw [if_neg hwi]
          exact h w hw
      · intro v hvm e' he'
        rcases List.mem_map.mp hvm with ⟨w, hw, rfl⟩
        have hwc := hb w hw e' (List.mem_cons_of_mem _ he')
        by_cases hwi : w.id = i
        · rw [if_pos hwi]
          exact hwc
        · rw [if_neg hwi]
          exact hwc

/-- C9 amended: starting from the empty roster, if the clock readings
observed along the trace are nondecreasing (the clock never runs
backwards between operations), every checked-out record satisfies
checkOutTime ≥ checkInTime.  The unrestricted "for all timing orders"
version is false — the code never compares the two stamps (see the
counterexample). -/
theorem c9_out_ge_in (events : List Event)
    (hp : (events.map eventTime).Pairwise (· ≤ ·)) :
    ∀ v ∈ run [] events, OutAfterIn v :=
  run_outAfterIn events [] hp
    (fun v hv => absurd hv (List.not_mem_nil v))
    (fun v hv => absurd hv (List.not_mem_nil v))

/-- Concrete instance of the timestamp ordering under a forward-running
clock: Jane checked in at 1 and out at 2. -/
theorem c9_out_ge_in_witness : OutAfterIn janeOutRecord :=
  c9_out_ge_in [Event.submit janeForm 1, Event.clickCheckOut 1 2]
    (by decide) janeOutRecord (by decide)
